import Mathlib

/-
Verification of the client-side upload scripts of render-gemini-docx.

The development shallowly embeds the browser scripts as pure Lean
functions over explicit state.  The main model is the "compressing
variant" (the second module of src/static/app.js), which keeps an
in-memory list `currentFiles` of selected images, compresses them
client-side, and posts them to /generate.  Two further variants are
modelled where claims cite them: src/unnamed/part_002 (a DataTransfer
based collector) and src/unnamed/part_001 (a filesState collector with
a try/finally submit handler).
-/

/-- A browser File object as the scripts observe it: a name, a MIME
type, the dimensions that an HTMLImageElement decode of the bytes would
yield (`none` models the decode failing, i.e. `img.onerror` firing),
and, for files produced by the canvas re-encoder, the JPEG quality (in
hundredths) that was passed to `canvas.toBlob`; user-supplied files
carry `none` there.  Byte contents and sizes are not otherwise
modelled: no claim depends on them. -/
structure JFile where
  name : String
  type : String
  decoded : Option (Nat × Nat)
  jpegQuality : Option Nat
deriving DecidableEq

/-- The test `/^image\//.test(t)` (equivalently `t.startsWith("image/")`
in the variants that phrase it that way): does the MIME type begin with
the six characters `image/`? -/
def isImageType (t : String) : Bool :=
  match t.toList with
  | 'i' :: 'm' :: 'a' :: 'g' :: 'e' :: '/' :: _ => true
  | _ => false

namespace Compress

/- ===== src/static/app.js, compressing variant (second IIFE) ===== -/

def MAX_FILES : Nat := 10

/-- A character matched by `\w` in a JS regular expression. -/
def isWordChar (c : Char) : Bool := c.isAlphanum || c = '_'

/-- `name.replace(/\.\w+$/, '')`: if the name ends in a dot followed by
one or more word characters, that suffix is removed. -/
def stripExt (name : String) : String :=
  let rev := name.toList.reverse
  let ext := rev.takeWhile isWordChar
  match rev.drop ext.length with
  | '.' :: rest => if ext.isEmpty then name else String.mk rest.reverse
  | _ => name

/-- `(file.name || 'image').replace(/\.\w+$/, '') + '.jpg'` from
`compressImage`. -/
def replaceExtWithJpg (name : String) : String :=
  stripExt (if name = "" then ("image") else name) ++ (".jpg")

/-- `compressImage(file, maxEdge, quality)` (src/static/app.js lines
95-120).  The promise has three outcomes.  `.ok none` models
`resolve(null)`: either the MIME type is not `image/*`, or the image
decode failed (`img.onerror`).  `.error` models
`reject(new Error('Sıkıştırma başarısız'))` on line 109: the HTML
specification has `canvas.toBlob` invoke its callback with a null blob
exactly when the canvas bitmap has no pixels, i.e. when a scaled
dimension is zero (which the code's own arithmetic produces, e.g. for a
1x2561 image whose scaled width rounds to 0, or for a 0x0 decode).
Otherwise the image is drawn onto a canvas of dimensions
`round(w * scale) x round(h * scale)` with
`scale = Math.min(maxEdge / Math.max(w, h), 1)` and exported as a JPEG
blob at the given quality (quality is kept in hundredths: the source
passes 0.8, modelled as 80).  JS division by zero yields Infinity,
which `Math.min` clamps to 1, hence the `m = 0` branch.  The scale
arithmetic, performed on JS doubles, is modelled exactly over ℚ;
`Math.round` is `round` (half up). -/
def compressImage (file : JFile) (maxEdge quality : Nat) :
    Except String (Option JFile) :=
  if !(isImageType file.type) then .ok none
  else
    match file.decoded with
    | none => .ok none
    | some (w, h) =>
      let m := max w h
      let scale : ℚ := if m = 0 then 1 else min ((maxEdge : ℚ) / (m : ℚ)) 1
      let w2 : Nat := (round ((w : ℚ) * scale)).toNat
      let h2 : Nat := (round ((h : ℚ) * scale)).toNat
      if w2 = 0 ∨ h2 = 0 then .error ("Sıkıştırma başarısız")
      else .ok (some { name := replaceExtWithJpg file.name,
                       type := ("image/jpeg"),
                       decoded := some (w2, h2),
                       jpegQuality := some quality })

/-- `compressBatch(files)` (lines 122-126): the sequential loop
`out.push(await compressImage(f, 1280, 0.8) || f)`.  Each slot gets the
compressed file when compression produced one, else the original; if
some `compressImage` rejects, the `await` throws and the whole batch
rejects with that error, producing no list. -/
def compressBatch : List JFile → Except String (List JFile)
  | [] => .ok []
  | f :: rest =>
    match compressImage f 1280 80 with
    | .error e => .error e
    | .ok r =>
      match compressBatch rest with
      | .error e => .error e
      | .ok out => .ok (r.getD f :: out)

/-- The page state the compressing variant mutates: the in-memory
`currentFiles` array, the file input's `value`, the submit button's
`disabled` flag and label, the error box (`none` = hidden), and the
values of the form fields the handlers read. -/
structure AppState where
  currentFiles : List JFile
  fileInputValue : String
  submitDisabled : Bool
  submitText : String
  errorBox : Option String
  planMonth : String
  intervalDays : String
  docName : String
deriving DecidableEq

def idleLabel : String := "Oluştur ve indir (.docx)"
def creatingLabel : String := "Oluşturuluyor…"
def errEmpty : String := "Lütfen en az 1 görsel yükleyin."
def errTooMany : String :=
  "En fazla " ++ toString MAX_FILES ++ " görsel yükleyebilirsiniz."
def errPlanLong (planCnt nFiles : Nat) : String :=
  "Seçilen aralıkla " ++ toString planCnt ++ " tarih çıkıyor; " ++
    toString nFiles ++
    " görsel fazla. Aralığı düşürün veya görsel sayısını azaltın."
def errPlanShort (planCnt nFiles : Nat) : String :=
  "Seçilen aralıkla " ++ toString planCnt ++ " tarih çıkıyor; " ++
    toString nFiles ++ " görsel fazla."

/- ----- calcPlanCount (lines 156-165) ----- -/

/-- The value of a decimal digit run, used both for `Number(...)` on the
regex-validated month pieces and inside `parseInt`. -/
def digitsVal (cs : List Char) : Nat :=
  cs.foldl (fun a c => a * 10 + (c.toNat - 48)) 0

/-- `parseInt(s, 10)`: skip leading whitespace, an optional sign, then
the longest run of decimal digits; `none` models NaN (no digits). -/
def jsParseInt (s : String) : Option Int :=
  let body : List Char → Option Int := fun cs =>
    let ds := cs.takeWhile Char.isDigit
    if ds.isEmpty then none else some (digitsVal ds)
  match s.toList.dropWhile Char.isWhitespace with
  | '-' :: rest => (body rest).map (fun n => -n)
  | '+' :: rest => body rest
  | cs => body cs

/-- `Math.max(1, x)`: NaN (modelled as `none`) propagates. -/
def jsMax1 : Option Int → Option Int
  | none => none
  | some v => some (max 1 v)

/-- The test of `/^\d{4}-\d{2}$/` against the month field value. -/
def monthPatternTest (s : String) : Bool :=
  match s.toList with
  | [c1, c2, c3, c4, dash, c5, c6] =>
    c1.isDigit && c2.isDigit && c3.isDigit && c4.isDigit &&
      dash = '-' && c5.isDigit && c6.isDigit
  | _ => false

/-- The ECMAScript Date constructor treats a year argument between 0 and
99 as 1900 + year. -/
def jsYearAdjust (y : Int) : Int :=
  if 0 ≤ y ∧ y ≤ 99 then 1900 + y else y

/-- Gregorian leap-year rule, as Date uses it. -/
def isLeapYear (y : Int) : Bool :=
  Int.emod y 4 = 0 && (Int.emod y 100 ≠ 0 || Int.emod y 400 = 0)

/-- Days in the month with JS month index `mIdx` (0 = January) of the
given year. -/
def daysInMonthIdx (mIdx y : Int) : Nat :=
  if mIdx = 1 then (if isLeapYear y then 29 else 28)
  else if mIdx = 3 ∨ mIdx = 5 ∨ mIdx = 8 ∨ mIdx = 10 then 30
  else 31

/-- `new Date(y, m, 0).getDate()`: day 0 of month index `m` normalizes
to the last day of month index `m - 1`; out-of-range month indices
carry into the year (floor division, as in MakeDay). -/
def jsDateLastDay (y m : Int) : Nat :=
  let yAdj := jsYearAdjust y
  let t := m - 1
  daysInMonthIdx (Int.fmod t 12) (yAdj + Int.fdiv t 12)

/-- `<=` between a JS number that may be NaN (`none`) and a number:
every comparison against NaN is false. -/
def jsLe (a : Option Int) (b : Int) : Bool :=
  match a with
  | none => false
  | some v => decide (v ≤ b)

/-- `+` between JS numbers that may be NaN: NaN propagates. -/
def jsAdd (a b : Option Int) : Option Int :=
  match a, b with
  | some x, some y => some (x + y)
  | _, _ => none

/-- The loop `for (let d = 1; d <= cutoff; d += n) cnt++` of
`calcPlanCount`, run with explicit fuel; `none` means the fuel was
exhausted before the loop exited.  `d` and `n` are JS numbers that may
be NaN. -/
def planLoop : Nat → Option Int → Int → Option Int → Nat → Option Nat
  | 0, _, _, _, _ => none
  | fuel + 1, d, cutoff, n, cnt =>
    if jsLe d cutoff then planLoop fuel (jsAdd d n) cutoff n (cnt + 1)
    else some cnt

def LOOP_FUEL : Nat := 30

/-- `calcPlanCount()` (lines 156-165), as a function of the month and
interval field values.  The write to `scheduleInfo.textContent` is a
pure display side effect and is not modelled.  `some c` is the returned
count; `none` would mean the modelled loop ran out of fuel (shown
impossible below). -/
def calcPlanCount (ym ivStr : String) : Option Nat :=
  let n := jsMax1 (jsParseInt (if ivStr = "" then ("1") else ivStr))
  if monthPatternTest ym then
    let parts := (ym.toList.splitOn '-').map (fun cs => String.mk cs)
    let y : Int := digitsVal (parts.getD 0 (String.mk [])).toList
    let m : Int := digitsVal (parts.getD 1 (String.mk [])).toList
    let lastDay : Int := jsDateLastDay y m
    let cutoff : Int := min 29 lastDay
    planLoop LOOP_FUEL (some 1) cutoff n 0
  else some 0

/- ----- DOM refresh helpers (lines 149-188) ----- -/

/-- `updateStatus()` (lines 149-154): only the submit button's disabled
flag is part of the modelled state (file-count and size labels are pure
display). -/
def updateStatus (s : AppState) : AppState :=
  { s with submitDisabled :=
      (s.currentFiles.length == 0) || decide (s.currentFiles.length > MAX_FILES) }

/-- `renderPreviews()` (lines 179-188): clears the error box, recomputes
the plan count, shows the over-maximum and over-plan warnings, rebuilds
the thumbnail grid (a pure function of `currentFiles`, not separately
modelled), and calls `updateStatus`.  The unreachable `getD 0` covers
the fuel-exhaustion case of the modelled loop, ruled out by
`calcPlanCount_isSome` below. -/
def renderPreviews (s : AppState) : AppState :=
  let s1 : AppState := { s with errorBox := none }
  let planCnt := (calcPlanCount s1.planMonth s1.intervalDays).getD 0
  let s2 : AppState :=
    if s1.currentFiles.length > MAX_FILES then
      { s1 with errorBox := some errTooMany } else s1
  let s3 : AppState :=
    if 0 < planCnt ∧ s2.currentFiles.length > planCnt then
      { s2 with errorBox := some (errPlanLong planCnt s2.currentFiles.length) }
    else s2
  updateStatus s3

/-- `addFiles(fileList)` (lines 190-202): keep only `image/*` files,
return early if none, otherwise compress the batch, append it to
`currentFiles` truncated to `MAX_FILES` (`.slice(0, MAX_FILES)`), run
the `finally` block that restores the submit button, and re-render.
When the awaited batch rejects, the exception propagates out of the
`try`: `currentFiles` is never assigned, the `finally` block still
restores the submit button (against the old collection), and
`renderPreviews` is not reached.  The transient
"Görseller hazırlanıyor…" label shown while the batch is awaited is not
part of the final state. -/
def addFiles (s : AppState) (fileList : List JFile) : AppState :=
  let imgs := fileList.filter (fun f => isImageType f.type)
  if imgs.isEmpty then s
  else
    match compressBatch imgs with
    | .error _ =>
      { s with submitText := idleLabel,
               submitDisabled := s.currentFiles.length == 0 }
    | .ok compressed =>
      let s1 : AppState :=
        { s with currentFiles := (s.currentFiles ++ compressed).take MAX_FILES }
      let s2 : AppState :=
        { s1 with submitText := idleLabel,
                  submitDisabled := s1.currentFiles.length == 0 }
      renderPreviews s2

/-- `arr.splice(i, 1)` on a JS array: the resulting array (an index at
or past the end removes nothing). -/
def spliceOne {α : Type} : List α → Nat → List α
  | [], _ => []
  | _ :: xs, 0 => xs
  | x :: xs, n + 1 => x :: spliceOne xs n

/-- The removal button handler installed by `makePreview` (lines
174-175): `currentFiles.splice(idx, 1); renderPreviews();`. -/
def removeFileAt (s : AppState) (idx : Nat) : AppState :=
  renderPreviews { s with currentFiles := spliceOne s.currentFiles idx }

/-- The `clearBtn` click handler (line 214):
`currentFiles = []; fileInput.value = ''; renderPreviews();`. -/
def clearAll (s : AppState) : AppState :=
  renderPreviews { s with currentFiles := [], fileInputValue := String.mk [] }

/-- The synchronous part of the submit handler (lines 216-229):
validation, then either an inline error with no request, or the
disabled/"Oluşturuluyor…" submitting state together with the list of
files appended to the multipart body (`some` = a fetch of /generate is
issued). -/
def submitValidate (s : AppState) : AppState × Option (List JFile) :=
  let planCnt := (calcPlanCount s.planMonth s.intervalDays).getD 0
  if s.currentFiles.length = 0 then
    ({ s with errorBox := some errEmpty }, none)
  else if s.currentFiles.length > MAX_FILES then
    ({ s with errorBox := some errTooMany }, none)
  else if 0 < planCnt ∧ s.currentFiles.length > planCnt then
    ({ s with errorBox := some (errPlanShort planCnt s.currentFiles.length) }, none)
  else
    ({ s with submitDisabled := true, submitText := creatingLabel,
              errorBox := none },
     some s.currentFiles)

/-- How the fetch of /generate settles: a response (with its `ok` flag,
status, optional Content-Disposition header, body text, and an abstract
identifier for the body bytes), or a network-level rejection. -/
inductive FetchOutcome where
  | response (ok : Bool) (status : Nat) (contentDisposition : Option String)
      (bodyText : String) (blobId : Nat)
  | networkError (message : String)
deriving DecidableEq

/-- A download triggered through the synthesized anchor click: the
`a.download` filename and the blob the object URL points at. -/
structure Download where
  filename : String
  blobId : Nat
deriving DecidableEq

def DEFAULT_DOC_NAME : String := "Instagram_Plani"

/-- The `.catch` branch (lines 247-250):
`showError(err.message || 'Bilinmeyen hata')` and restore the submit
button. -/
def catchBranch (s : AppState) (msg : String) : AppState :=
  { s with errorBox := some (if msg = "" then ("Bilinmeyen hata") else msg),
           submitText := idleLabel, submitDisabled := false }

/-- The response handling of the submit handler (lines 230-250).  On a
non-ok response the handler throws a status-dependent error which lands
in `.catch`; on a network error `.catch` receives the rejection
message.  On an ok response it downloads the blob under
`(doc_name.value || 'Instagram_Plani') + '.docx'`, restores the button,
clears `currentFiles` and the file input, and re-renders. -/
def submitResolve (s : AppState) (o : FetchOutcome) : AppState × Option Download :=
  match o with
  | .networkError msg => (catchBranch s msg, none)
  | .response ok status _cd bodyText blobId =>
    if ok then
      let name :=
        (if s.docName = "" then DEFAULT_DOC_NAME else s.docName) ++ (".docx")
      let s1 : AppState :=
        { s with submitText := idleLabel, submitDisabled := false,
                 currentFiles := [], fileInputValue := String.mk [] }
      (renderPreviews s1, some { filename := name, blobId := blobId })
    else
      let msg :=
        if status = 413 then ("Yükleme çok büyük (413).")
        else if status = 502 ∨ status = 504 then ("Zaman aşımı (502/504).")
        else "Sunucu hatası: " ++ bodyText.take 300
      (catchBranch s msg, none)

/-- The file-collection operations of the variant: an add (the shared
handler of the picker `change` event and the dropzone `drop` event), a
removal via a thumbnail's button, and the clear button. -/
inductive Op where
  | add (files : List JFile)
  | remove (idx : Nat)
  | clear

def applyOp (s : AppState) : Op → AppState
  | .add files => addFiles s files
  | .remove idx => removeFileAt s idx
  | .clear => clearAll s

/-- The state after the script's initial trailing `renderPreviews()`
call on a fresh page: no files, empty fields, button disabled. -/
def initialState : AppState :=
  { currentFiles := [], fileInputValue := String.mk [],
    submitDisabled := true, submitText := idleLabel, errorBox := none,
    planMonth := String.mk [], intervalDays := String.mk [],
    docName := String.mk [] }

def applyOps (s : AppState) (ops : List Op) : AppState :=
  ops.foldl applyOp s

end Compress

namespace Part002

/-- `addFiles(files)` of src/unnamed/part_002 (lines 28-35): a fresh
DataTransfer receives first every file already in `fileInput.files`,
then every incoming file, and becomes the new `fileInput.files`.  There
is no MIME-type check of any kind. -/
def addFiles (inputFiles newFiles : List JFile) : List JFile :=
  inputFiles ++ newFiles

end Part002

namespace Part001

/-- The state src/unnamed/part_001's submit handler touches: the submit
button's disabled flag, the toast text, and the removable `filesState`
list. -/
structure St where
  btnDisabled : Bool
  toast : Option String
  filesState : List JFile
deriving DecidableEq

/-- How the fetch of /planla settles for part_001: a JSON-parsed
response (its `ok` status flag, the body's `ok` flag and optional
`error` field), or any thrown error (network failure or JSON parse
failure), which the catch block turns into "Ağ hatası.". -/
inductive Outcome where
  | jsonResponse (resOk : Bool) (dataOk : Bool) (dataError : Option String)
  | thrown
deriving DecidableEq

/-- The submit handler of src/unnamed/part_001 (lines 63-88): disable
the button, fetch, toast the result, and in `finally` re-enable the
button whatever happened. -/
def submitResolve (s : St) (o : Outcome) : St :=
  let s1 : St :=
    match o with
    | .thrown => { s with toast := some ("Ağ hatası.") }
    | .jsonResponse resOk dataOk dataError =>
      if !resOk || !dataOk then
        { s with toast := some (dataError.getD ("Hata oluştu.")) }
      else
        { s with toast := some ("Plan başarıyla hazırlandı (örnek JSON döndü).") }
  { s1 with btnDisabled := false }

end Part001

/- ===== Concrete sample values used by witnesses and counterexamples ===== -/

/-- A plain text file, as dropped onto a dropzone. -/
def textFile : JFile :=
  { name := "notes.txt", type := "text/plain", decoded := none,
    jpegQuality := none }

/-- A PNG whose browser-side decode fails (`img.onerror`). -/
def badPng (i : Nat) : JFile :=
  { name := "bad" ++ toString i ++ ".png", type := "image/png",
    decoded := none, jpegQuality := none }

/-- A 2000x1000 PNG that decodes fine. -/
def bigPhoto : JFile :=
  { name := "photo.png", type := "image/png", decoded := some (2000, 1000),
    jpegQuality := none }

/-- One small decodable JPEG. -/
def smallPhoto : JFile :=
  { name := "small.jpg", type := "image/jpeg", decoded := some (100, 60),
    jpegQuality := none }

/-- Eleven decode-failing PNGs: eleven images, one more than the
maximum, whose compression batch completes (each falls back to the
original bytes). -/
def elevenImages : List JFile :=
  (List.range 11).map badPng

/-- A decodable 1x2561 PNG: its scaled width is
`Math.round(1 * 1280/2561) = 0`, so the canvas has no pixels, `toBlob`
yields null, and `compressImage` rejects. -/
def tallPhoto : JFile :=
  { name := "tall.png", type := "image/png", decoded := some (1, 2561),
    jpegQuality := none }

/-- Eleven images led by the tall one: an overfull add whose
compression batch rejects. -/
def elevenWithTall : List JFile :=
  tallPhoto :: (List.range 10).map badPng

/-- A state ready to submit: one selected file, a valid month, interval
2, a document name. -/
def readyState : Compress.AppState :=
  { currentFiles := [smallPhoto], fileInputValue := "small.jpg",
    submitDisabled := false, submitText := Compress.idleLabel,
    errorBox := none, planMonth := "2024-02", intervalDays := "2",
    docName := "Plan" }

/-- A ready state whose month field does not match `YYYY-MM`. -/
def badMonthState : Compress.AppState :=
  { currentFiles := [smallPhoto], fileInputValue := "small.jpg",
    submitDisabled := false, submitText := Compress.idleLabel,
    errorBox := none, planMonth := "next month", intervalDays := "2",
    docName := "Plan" }

/-- A state holding three distinguishable files, for the removal
claim. -/
def threeState : Compress.AppState :=
  { currentFiles := [badPng 0, badPng 1, badPng 2], fileInputValue := "",
    submitDisabled := false, submitText := Compress.idleLabel,
    errorBox := none, planMonth := "2024-02", intervalDays := "2",
    docName := "Plan" }


/- ===== Helper lemmas ===== -/

namespace Compress

theorem renderPreviews_currentFiles (s : AppState) :
    (renderPreviews s).currentFiles = s.currentFiles := by
  unfold renderPreviews updateStatus
  dsimp only
  split <;> split <;> rfl

theorem renderPreviews_submitText (s : AppState) :
    (renderPreviews s).submitText = s.submitText := by
  unfold renderPreviews updateStatus
  dsimp only
  split <;> split <;> rfl

theorem renderPreviews_fileInputValue (s : AppState) :
    (renderPreviews s).fileInputValue = s.fileInputValue := by
  unfold renderPreviews updateStatus
  dsimp only
  split <;> split <;> rfl

theorem renderPreviews_submitDisabled (s : AppState) :
    (renderPreviews s).submitDisabled =
      ((s.currentFiles.length == 0) || decide (s.currentFiles.length > MAX_FILES)) := by
  unfold renderPreviews updateStatus
  dsimp only
  split <;> split <;> rfl

theorem compressBatch_ok_length : ∀ {files out : List JFile},
    compressBatch files = .ok out → out.length = files.length := by
  intro files
  induction files with
  | nil =>
    intro out hok
    simp only [compressBatch, Except.ok.injEq] at hok
    rw [← hok]
  | cons f rest ih =>
    intro out hok
    simp only [compressBatch] at hok
    cases hci : compressImage f 1280 80 with
    | error e => rw [hci] at hok; exact absurd hok (by simp)
    | ok r =>
      rw [hci] at hok
      cases hcb : compressBatch rest with
      | error e => rw [hcb] at hok; exact absurd hok (by simp)
      | ok out2 =>
        rw [hcb] at hok
        simp only [Except.ok.injEq] at hok
        rw [← hok]
        simp [ih hcb]

theorem compressBatch_ok_get? : ∀ {files out : List JFile},
    compressBatch files = .ok out →
    ∀ (i : Nat) (f : JFile), files.get? i = some f →
      ∃ r, compressImage f 1280 80 = .ok r ∧
        out.get? i = some (r.getD f) := by
  intro files
  induction files with
  | nil =>
    intro out hok i f hi
    simp at hi
  | cons g rest ih =>
    intro out hok i f hi
    simp only [compressBatch] at hok
    cases hci : compressImage g 1280 80 with
    | error e => rw [hci] at hok; exact absurd hok (by simp)
    | ok r =>
      rw [hci] at hok
      cases hcb : compressBatch rest with
      | error e => rw [hcb] at hok; exact absurd hok (by simp)
      | ok out2 =>
        rw [hcb] at hok
        simp only [Except.ok.injEq] at hok
        rw [← hok]
        cases i with
        | zero =>
          simp only [List.get?] at hi
          injection hi with hgf
          subst hgf
          exact ⟨r, hci, rfl⟩
        | succ n =>
          simp only [List.get?] at hi ⊢
          exact ih hcb n f hi

theorem compressBatch_ok_mem : ∀ {files out : List JFile},
    compressBatch files = .ok out →
    ∀ f ∈ out, ∃ g ∈ files, ∃ r,
      compressImage g 1280 80 = .ok r ∧ f = r.getD g := by
  intro files
  induction files with
  | nil =>
    intro out hok f hf
    simp only [compressBatch, Except.ok.injEq] at hok
    rw [← hok] at hf
    simp at hf
  | cons g rest ih =>
    intro out hok f hf
    simp only [compressBatch] at hok
    cases hci : compressImage g 1280 80 with
    | error e => rw [hci] at hok; exact absurd hok (by simp)
    | ok r =>
      rw [hci] at hok
      cases hcb : compressBatch rest with
      | error e => rw [hcb] at hok; exact absurd hok (by simp)
      | ok out2 =>
        rw [hcb] at hok
        simp only [Except.ok.injEq] at hok
        rw [← hok] at hf
        rcases List.mem_cons.mp hf with heq | htail
        · exact ⟨g, List.mem_cons_self g rest, r, hci, heq⟩
        · obtain ⟨g2, hg2, r2, hr2, hfr2⟩ := ih hcb f htail
          exact ⟨g2, List.mem_cons_of_mem g hg2, r2, hr2, hfr2⟩

theorem compressBatch_error_of_mem : ∀ {files : List JFile} {f : JFile}
    {e : String}, f ∈ files → compressImage f 1280 80 = .error e →
    ∃ e2, compressBatch files = .error e2 := by
  intro files
  induction files with
  | nil => intro f e hmem _; simp at hmem
  | cons g rest ih =>
    intro f e hmem hci
    rcases List.mem_cons.mp hmem with heq | htail
    · subst heq
      exact ⟨e, by simp [compressBatch, hci]⟩
    · cases hg : compressImage g 1280 80 with
      | error e2 => exact ⟨e2, by simp [compressBatch, hg]⟩
      | ok r =>
        obtain ⟨e2, hrec⟩ := ih htail hci
        exact ⟨e2, by simp [compressBatch, hg, hrec]⟩

theorem compressImage_decode_fail (f : JFile) (h : f.decoded = none) :
    compressImage f 1280 80 = .ok none := by
  simp [compressImage, h]

theorem compressImage_type_eq {f : JFile} {me q : Nat} {out : JFile}
    (h : compressImage f me q = .ok (some out)) : out.type = "image/jpeg" := by
  unfold compressImage at h
  split at h
  · exact absurd h (by simp)
  · split at h
    · exact absurd h (by simp)
    · dsimp only at h
      split at h
      · split at h
        · exact absurd h (by simp)
        · simp only [Except.ok.injEq, Option.some.injEq] at h
          rw [← h]
      · split at h
        · exact absurd h (by simp)
        · simp only [Except.ok.injEq, Option.some.injEq] at h
          rw [← h]

theorem round_rat_mono {a b : ℚ} (h : a ≤ b) : round a ≤ round b := by
  rw [round_eq, round_eq]
  exact Int.floor_le_floor (by linarith)

theorem scaled_dim_le (x m edge : Nat) (hx : x ≤ m) (hm : m ≠ 0) :
    (round ((x : ℚ) * min ((edge : ℚ) / (m : ℚ)) 1)).toNat ≤ edge ∧
    (round ((x : ℚ) * min ((edge : ℚ) / (m : ℚ)) 1)).toNat ≤ x := by
  have hm0 : (0 : ℚ) < (m : ℚ) := by positivity
  have hsc0 : (0 : ℚ) ≤ min ((edge : ℚ) / (m : ℚ)) 1 :=
    le_min (by positivity) zero_le_one
  have hx0 : (0 : ℚ) ≤ (x : ℚ) := by positivity
  constructor
  · have h1 : (x : ℚ) * min ((edge : ℚ) / (m : ℚ)) 1 ≤ (edge : ℚ) := by
      calc (x : ℚ) * min ((edge : ℚ) / (m : ℚ)) 1
          ≤ (m : ℚ) * min ((edge : ℚ) / (m : ℚ)) 1 := by
            apply mul_le_mul_of_nonneg_right _ hsc0
            exact_mod_cast hx
        _ ≤ (m : ℚ) * ((edge : ℚ) / (m : ℚ)) := by
            apply mul_le_mul_of_nonneg_left (min_le_left _ _) (le_of_lt hm0)
        _ = (edge : ℚ) := by
            field_simp
    have h2 : round ((x : ℚ) * min ((edge : ℚ) / (m : ℚ)) 1) ≤ (edge : ℤ) := by
      have := round_rat_mono h1
      rwa [round_natCast] at this
    calc (round ((x : ℚ) * min ((edge : ℚ) / (m : ℚ)) 1)).toNat
        ≤ ((edge : ℤ)).toNat := Int.toNat_le_toNat h2
      _ = edge := Int.toNat_natCast edge
  · have h1 : (x : ℚ) * min ((edge : ℚ) / (m : ℚ)) 1 ≤ (x : ℚ) := by
      calc (x : ℚ) * min ((edge : ℚ) / (m : ℚ)) 1
          ≤ (x : ℚ) * 1 := mul_le_mul_of_nonneg_left (min_le_right _ _) hx0
        _ = (x : ℚ) := mul_one _
    have h2 : round ((x : ℚ) * min ((edge : ℚ) / (m : ℚ)) 1) ≤ (x : ℤ) := by
      have := round_rat_mono h1
      rwa [round_natCast] at this
    calc (round ((x : ℚ) * min ((edge : ℚ) / (m : ℚ)) 1)).toNat
        ≤ ((x : ℤ)).toNat := Int.toNat_le_toNat h2
      _ = x := Int.toNat_natCast x

theorem compressImage_scaled (f : JFile) (w h : Nat)
    (himg : isImageType f.type = true) (hdec : f.decoded = some (w, h)) :
    compressImage f 1280 80 =
      (if (round ((w : ℚ) * (if max w h = 0 then 1
            else min (((1280 : Nat) : ℚ) / ((max w h : Nat) : ℚ)) 1))).toNat = 0 ∨
          (round ((h : ℚ) * (if max w h = 0 then 1
            else min (((1280 : Nat) : ℚ) / ((max w h : Nat) : ℚ)) 1))).toNat = 0
       then .error ("Sıkıştırma başarısız")
       else .ok (some { name := replaceExtWithJpg f.name,
                        type := "image/jpeg",
                        decoded := some
                          ((round ((w : ℚ) * (if max w h = 0 then 1
                              else min (((1280 : Nat) : ℚ) /
                                ((max w h : Nat) : ℚ)) 1))).toNat,
                           (round ((h : ℚ) * (if max w h = 0 then 1
                              else min (((1280 : Nat) : ℚ) /
                                ((max w h : Nat) : ℚ)) 1))).toNat),
                        jpegQuality := some 80 })) := by
  unfold compressImage
  rw [himg, hdec]
  rfl

theorem compressImage_spec (f : JFile) (w h : Nat)
    (himg : isImageType f.type = true) (hdec : f.decoded = some (w, h)) :
    (∃ w2 h2, compressImage f 1280 80 =
        .ok (some { name := replaceExtWithJpg f.name, type := "image/jpeg",
                    decoded := some (w2, h2), jpegQuality := some 80 }) ∧
      w2 ≤ 1280 ∧ h2 ≤ 1280 ∧ w2 ≤ w ∧ h2 ≤ h ∧ 0 < w2 ∧ 0 < h2) ∨
    compressImage f 1280 80 = .error ("Sıkıştırma başarısız") := by
  rw [compressImage_scaled f w h himg hdec]
  by_cases hm : max w h = 0
  · right
    obtain ⟨hw0, hh0⟩ := Nat.max_eq_zero_iff.mp hm
    subst hw0
    subst hh0
    simp
  · rw [if_neg hm]
    split
    · exact Or.inr rfl
    · rename_i hz
      push_neg at hz
      left
      have hw := scaled_dim_le w (max w h) 1280 (le_max_left _ _) hm
      have hh := scaled_dim_le h (max w h) 1280 (le_max_right _ _) hm
      exact ⟨_, _, rfl, hw.1, hh.1, hw.2, hh.2,
        Nat.pos_of_ne_zero hz.1, Nat.pos_of_ne_zero hz.2⟩

theorem compressImage_tall_error :
    compressImage tallPhoto 1280 80 = .error ("Sıkıştırma başarısız") := by
  rw [compressImage_scaled tallPhoto 1 2561 (by decide) rfl]
  have hm : (max 1 2561 : Nat) = 2561 := by norm_num
  rw [hm, if_neg (by norm_num : ¬ (2561 : Nat) = 0)]
  have hw2 : (round (((1 : Nat) : ℚ) *
      min (((1280 : Nat) : ℚ) / (((2561 : Nat)) : ℚ)) 1)).toNat = 0 := by
    have hr : round (((1 : Nat) : ℚ) *
        min (((1280 : Nat) : ℚ) / (((2561 : Nat)) : ℚ)) 1) = 0 := by
      rw [Nat.cast_one, one_mul, round_eq_zero_iff, Set.mem_Ico]
      constructor
      · have : (0 : ℚ) ≤ min (((1280 : Nat) : ℚ) / (((2561 : Nat)) : ℚ)) 1 :=
          le_min (by positivity) zero_le_one
        linarith
      · calc min (((1280 : Nat) : ℚ) / (((2561 : Nat)) : ℚ)) 1
            ≤ ((1280 : Nat) : ℚ) / (((2561 : Nat)) : ℚ) := min_le_left _ _
          _ < 1 / 2 := by
              push_cast
              norm_num
    rw [hr]
    rfl
  rw [if_pos (Or.inl hw2)]

end Compress

namespace Compress

theorem spliceOne_eq_take_drop {α : Type} :
    ∀ (l : List α) (i : Nat), i < l.length →
      spliceOne l i = l.take i ++ l.drop (i + 1) := by
  intro l
  induction l with
  | nil => intro i hi; simp at hi
  | cons x xs ih =>
    intro i hi
    cases i with
    | zero => simp [spliceOne]
    | succ n =>
      simp only [spliceOne, List.take_succ_cons, List.drop_succ_cons,
        List.cons_append, List.cons.injEq, true_and]
      exact ih n (by simpa using hi)

theorem spliceOne_length_le {α : Type} :
    ∀ (l : List α) (i : Nat), (spliceOne l i).length ≤ l.length := by
  intro l
  induction l with
  | nil => intro i; simp [spliceOne]
  | cons x xs ih =>
    intro i
    cases i with
    | zero => simp [spliceOne]
    | succ n => simpa [spliceOne] using ih n

theorem planLoop_isSome_nan (fuel : Nat) (d cutoff : Int) (cnt : Nat)
    (hf : 2 ≤ fuel) :
    (planLoop fuel (some d) cutoff none cnt).isSome = true := by
  match fuel, hf with
  | f + 2, _ =>
    unfold planLoop
    split
    · unfold planLoop
      simp [jsAdd, jsLe]
    · simp

theorem planLoop_isSome_pos (k : Int) (hk : 1 ≤ k) :
    ∀ (fuel : Nat) (d cutoff : Int) (cnt : Nat),
      (cutoff + 1 - d).toNat < fuel →
      (planLoop fuel (some d) cutoff (some k) cnt).isSome = true := by
  intro fuel
  induction fuel with
  | zero => intro d cutoff cnt hb; omega
  | succ f ih =>
    intro d cutoff cnt hb
    unfold planLoop
    split
    · rename_i hle
      have hd : d ≤ cutoff := by simpa [jsLe] using hle
      have hb2 : (cutoff + 1 - (d + k)).toNat < f := by omega
      simpa [jsAdd] using ih (d + k) cutoff (cnt + 1) hb2
    · simp

theorem planLoop_isSome_clamped (n0 : Option Int) (cutoff : Int)
    (hc : cutoff ≤ 29) :
    (planLoop LOOP_FUEL (some 1) cutoff (jsMax1 n0) 0).isSome = true := by
  cases n0 with
  | none => exact planLoop_isSome_nan LOOP_FUEL 1 cutoff 0 (by decide)
  | some v =>
    apply planLoop_isSome_pos (max 1 v) (le_max_left 1 v) LOOP_FUEL 1 cutoff 0
    simp only [LOOP_FUEL]
    omega

theorem calcPlanCount_isSome (ym iv : String) :
    (calcPlanCount ym iv).isSome = true := by
  unfold calcPlanCount
  dsimp only
  split
  · exact planLoop_isSome_clamped _ _ (min_le_left _ _)
  · simp

theorem submitValidate_empty (s : AppState) (h : s.currentFiles = []) :
    submitValidate s = ({ s with errorBox := some errEmpty }, none) := by
  simp [submitValidate, h]

theorem addFiles_currentFiles (s : AppState) (fl : List JFile) :
    (addFiles s fl).currentFiles =
      if (fl.filter (fun f => isImageType f.type)).isEmpty then s.currentFiles
      else
        match compressBatch (fl.filter (fun f => isImageType f.type)) with
        | .error _ => s.currentFiles
        | .ok compressed => (s.currentFiles ++ compressed).take MAX_FILES := by
  unfold addFiles
  dsimp only
  split
  · rfl
  · cases hcb : compressBatch (fl.filter (fun f => isImageType f.type)) with
    | error e => rfl
    | ok compressed =>
      dsimp only
      rw [renderPreviews_currentFiles]

theorem applyOp_length_le (s : AppState) (op : Op)
    (hs : s.currentFiles.length ≤ MAX_FILES) :
    (applyOp s op).currentFiles.length ≤ MAX_FILES := by
  cases op with
  | add files =>
    show (addFiles s files).currentFiles.length ≤ MAX_FILES
    rw [addFiles_currentFiles]
    split
    · exact hs
    · cases hcb : compressBatch (files.filter (fun f => isImageType f.type)) with
      | error e => exact hs
      | ok compressed =>
        dsimp only
        calc ((s.currentFiles ++ compressed).take MAX_FILES).length
            ≤ MAX_FILES := by
              rw [List.length_take]
              exact min_le_left _ _
  | remove idx =>
    show (removeFileAt s idx).currentFiles.length ≤ MAX_FILES
    unfold removeFileAt
    rw [renderPreviews_currentFiles]
    exact le_trans (spliceOne_length_le s.currentFiles idx) hs
  | clear =>
    show (clearAll s).currentFiles.length ≤ MAX_FILES
    unfold clearAll
    rw [renderPreviews_currentFiles]
    simp [MAX_FILES]

theorem applyOps_length_le (ops : List Op) :
    ∀ s : AppState, s.currentFiles.length ≤ MAX_FILES →
      (applyOps s ops).currentFiles.length ≤ MAX_FILES := by
  induction ops with
  | nil => intro s hs; exact hs
  | cons op rest ih =>
    intro s hs
    exact ih (applyOp s op) (applyOp_length_le s op hs)

end Compress

/- ===== Claim theorems ===== -/

/-- Counterexample to claim C1: adding files beyond the maximum does
not always leave the collection at exactly the maximum.  Eleven image
files are offered to the empty collection, but the first is a 1x2561
image whose scaled width rounds to 0, so its `compressImage` rejects,
the batch throws, `currentFiles` is never assigned, and the collection
stays at length 0, not `MAX_FILES`.  (The bound itself is untouched:
0 ≤ 10.) -/
theorem C1_counterexample_rejected_batch :
    Compress.MAX_FILES ≤
      (elevenWithTall.filter (fun f => isImageType f.type)).length ∧
    (Compress.addFiles Compress.initialState
        elevenWithTall).currentFiles.length = 0 ∧
    (0 : Nat) ≠ Compress.MAX_FILES := by
  refine ⟨by decide, ?_, by decide⟩
  rw [Compress.addFiles_currentFiles]
  have hfilter : elevenWithTall.filter (fun f => isImageType f.type) =
      elevenWithTall := by decide
  rw [hfilter]
  have hbatch : Compress.compressBatch elevenWithTall =
      .error ("Sıkıştırma başarısız") := by
    show (match Compress.compressImage tallPhoto 1280 80 with
      | .error e => Except.error e
      | .ok r =>
        match Compress.compressBatch ((List.range 10).map badPng) with
        | .error e => Except.error e
        | .ok out => Except.ok (r.getD tallPhoto :: out)) =
      Except.error ("Sıkıştırma başarısız")
    rw [Compress.compressImage_tall_error]
  rw [if_neg (by decide : ¬ elevenWithTall.isEmpty = true), hbatch]
  rfl

/-- Claim C1 as amended: along every sequence of add/remove/clear
operations from the empty collection, `currentFiles` stays at most
`MAX_FILES`.  An add whose compression batch completes and would push a
within-bounds collection past the maximum leaves exactly `MAX_FILES`;
an add whose batch rejects leaves the collection unchanged (hence still
within the bound, but not necessarily at the maximum). -/
theorem C1_collection_never_exceeds_max :
    (∀ ops : List Compress.Op,
        (Compress.applyOps Compress.initialState ops).currentFiles.length ≤
          Compress.MAX_FILES) ∧
    (∀ (s : Compress.AppState) (fl : List JFile) (compressed : List JFile),
        s.currentFiles.length ≤ Compress.MAX_FILES →
        Compress.MAX_FILES ≤ s.currentFiles.length +
          (fl.filter (fun f => isImageType f.type)).length →
        Compress.compressBatch (fl.filter (fun f => isImageType f.type)) =
          .ok compressed →
        (Compress.addFiles s fl).currentFiles.length = Compress.MAX_FILES) ∧
    (∀ (s : Compress.AppState) (fl : List JFile) (e : String),
        Compress.compressBatch (fl.filter (fun f => isImageType f.type)) =
          .error e →
        (Compress.addFiles s fl).currentFiles = s.currentFiles) := by
  refine ⟨?_, ?_, ?_⟩
  · intro ops
    exact Compress.applyOps_length_le ops Compress.initialState (by decide)
  · intro s fl compressed hle htot hok
    rw [Compress.addFiles_currentFiles]
    split
    · rename_i hempty
      have hnil : fl.filter (fun f => isImageType f.type) = [] := by
        simpa [List.isEmpty_iff] using hempty
      rw [hnil] at htot
      simp at htot
      omega
    · rw [hok]
      dsimp only
      rw [List.length_take, List.length_append,
        Compress.compressBatch_ok_length hok]
      omega
  · intro s fl e herr
    rw [Compress.addFiles_currentFiles]
    split
    · rfl
    · rw [herr]

/-- Witness for C1 as amended: adding eleven decodable-batch images to
the empty collection keeps the bound and lands exactly on the
maximum. -/
theorem C1_collection_never_exceeds_max_witness :
    (Compress.applyOps Compress.initialState
        [Compress.Op.add elevenImages]).currentFiles.length ≤
      Compress.MAX_FILES ∧
    (Compress.addFiles Compress.initialState elevenImages).currentFiles.length =
      Compress.MAX_FILES :=
  ⟨C1_collection_never_exceeds_max.1 [Compress.Op.add elevenImages],
   C1_collection_never_exceeds_max.2.1 Compress.initialState elevenImages
     ((List.range 11).map badPng) (by decide) (by decide) rfl⟩

/-- Counterexample to claim C2: the compressing variant picks the
download filename from the `doc_name` field, not from the response's
Content-Disposition header.  Here the header is present and names
`ServerChoice.docx`, but the triggered download is named `Plan.docx`
(the `doc_name` value plus `.docx`); dropping the header entirely
yields the same filename. -/
theorem C2_counterexample_header_ignored :
    (Compress.submitResolve readyState
        (.response true 200 (some ("attachment; filename=ServerChoice.docx"))
          (String.mk []) 7)).2 =
      some { filename := "Plan.docx", blobId := 7 } ∧
    (Compress.submitResolve readyState
        (.response true 200 none (String.mk []) 7)).2 =
      some { filename := "Plan.docx", blobId := 7 } ∧
    ("Plan.docx" : String) ≠ "ServerChoice.docx" := by
  refine ⟨rfl, rfl, by decide⟩

/-- Claim C2 as amended: on a successful binary response a download is
triggered whose filename is the `doc_name` field value with `.docx`
appended when the field is non-empty, else the default
`Instagram_Plani.docx`; the Content-Disposition header (`cd` below) is
never consulted. -/
theorem C2_download_name_from_field (s : Compress.AppState) (status : Nat)
    (cd : Option String) (txt : String) (b : Nat) :
    (Compress.submitResolve s (.response true status cd txt b)).2 =
      some { filename :=
               (if s.docName = "" then Compress.DEFAULT_DOC_NAME
                else s.docName) ++ ".docx",
             blobId := b } := rfl

/-- Claim C3: for month "2024-02" and interval "2" the derived schedule
count equals the number of days d with 1 ≤ d ≤ min(29, daysInMonth) for
February 2024 (a leap month of 29 days) taken in steps of 2 starting at
1, i.e. the odd days, which is 15. -/
theorem C3_feb2024_interval2_count :
    Compress.calcPlanCount ("2024-02") ("2") =
      some (((Finset.Icc 1 (min 29 (Compress.jsDateLastDay 2024 2))).filter
        (fun d => d % 2 = 1)).card) ∧
    Compress.jsDateLastDay 2024 2 = 29 ∧
    Compress.calcPlanCount ("2024-02") ("2") = some 15 := by
  refine ⟨by decide, by decide, by decide⟩

/-- Counterexample to claim C4: the normalizer does not always
substitute a normalized file (or the original) for an accepted,
decodable file.  For the 1x2561 image, the scaled width is
`Math.round(1 * 1280/2561) = 0`, the canvas has no pixels, so
`canvas.toBlob` yields null and `compressImage` rejects (line 109);
the batch aborts with that error and no substitution happens at all. -/
theorem C4_counterexample_toblob_reject :
    isImageType tallPhoto.type = true ∧
    tallPhoto.decoded = some (1, 2561) ∧
    Compress.compressImage tallPhoto 1280 80 =
      .error ("Sıkıştırma başarısız") ∧
    Compress.compressBatch [tallPhoto] =
      .error ("Sıkıştırma başarısız") := by
  refine ⟨by decide, rfl, Compress.compressImage_tall_error, ?_⟩
  show (match Compress.compressImage tallPhoto 1280 80 with
    | .error e => Except.error e
    | .ok r =>
      match Compress.compressBatch [] with
      | .error e => Except.error e
      | .ok out => Except.ok (r.getD tallPhoto :: out)) =
    Except.error ("Sıkıştırma başarısız")
  rw [Compress.compressImage_tall_error]

/-- Claim C4 as amended: when the compression batch completes, each
slot holds the compressed file when compression produced one, else the
original.  A file whose decode fails is skipped (`compressImage`
resolves null) and the batch keeps the original in its place.  For an
accepted file that decodes, either the normalizer produces a JPEG at
the fixed quality 0.8 (kept as 80 hundredths) with the original base
name and a `.jpg` extension, both dimensions scaled to at most 1280
(never upscaling) and nonzero, or a scaled dimension rounds to zero,
`canvas.toBlob` yields null, and `compressImage` rejects; any rejecting
file makes the whole batch reject, with no substitution. -/
theorem C4_image_normalizer :
    (∀ (files out : List JFile),
        Compress.compressBatch files = .ok out →
        out.length = files.length ∧
        ∀ (i : Nat) (f : JFile), files.get? i = some f →
          ∃ r, Compress.compressImage f 1280 80 = .ok r ∧
            out.get? i = some (r.getD f)) ∧
    (∀ f : JFile, f.decoded = none →
        Compress.compressImage f 1280 80 = .ok none ∧
        Compress.compressBatch [f] = .ok [f]) ∧
    (∀ (f : JFile) (w h : Nat), isImageType f.type = true →
        f.decoded = some (w, h) →
        (∃ w2 h2, Compress.compressImage f 1280 80 =
            .ok (some { name := Compress.replaceExtWithJpg f.name,
                        type := "image/jpeg",
                        decoded := some (w2, h2),
                        jpegQuality := some 80 }) ∧
          w2 ≤ 1280 ∧ h2 ≤ 1280 ∧ w2 ≤ w ∧ h2 ≤ h ∧ 0 < w2 ∧ 0 < h2) ∨
        Compress.compressImage f 1280 80 =
          .error ("Sıkıştırma başarısız")) ∧
    (∀ (files : List JFile) (f : JFile) (e : String), f ∈ files →
        Compress.compressImage f 1280 80 = .error e →
        ∃ e2, Compress.compressBatch files = .error e2) := by
  refine ⟨fun files out hok => ⟨Compress.compressBatch_ok_length hok,
      fun i f hi => Compress.compressBatch_ok_get? hok i f hi⟩,
    fun f hf => ⟨Compress.compressImage_decode_fail f hf, ?_⟩,
    Compress.compressImage_spec,
    fun files f e hmem herr => Compress.compressBatch_error_of_mem hmem herr⟩
  simp [Compress.compressBatch, Compress.compressImage_decode_fail f hf]

/-- Witness for C4 as amended at the 2000x1000 image `bigPhoto`. -/
theorem C4_image_normalizer_witness :
    (∃ w2 h2, Compress.compressImage bigPhoto 1280 80 =
        .ok (some { name := Compress.replaceExtWithJpg bigPhoto.name,
                    type := "image/jpeg",
                    decoded := some (w2, h2), jpegQuality := some 80 }) ∧
      w2 ≤ 1280 ∧ h2 ≤ 1280 ∧ w2 ≤ 2000 ∧ h2 ≤ 1000 ∧ 0 < w2 ∧ 0 < h2) ∨
    Compress.compressImage bigPhoto 1280 80 =
      .error ("Sıkıştırma başarısız") :=
  C4_image_normalizer.2.2.1 bigPhoto 2000 1000 (by decide) rfl

/-- Counterexample to claim C5: in the part_002 variant, `addFiles`
appends dropped files to the input's FileList with no MIME-type check,
so a `text/plain` file enters the collection. -/
theorem C5_counterexample_part002_accepts_nonimage :
    Part002.addFiles [] [textFile] = [textFile] ∧
    isImageType textFile.type = false := by
  refine ⟨rfl, by decide⟩

/-- Claim C5 as amended: in the compressing variant of
src/static/app.js, `addFiles` filters non-image files out silently, so
if every file already in the collection has an `image/*` type then so
does every file after any add (new entries are either canvas re-encodes
of type `image/jpeg` or image-typed originals kept as fallback). -/
theorem C5_compress_variant_image_only (s : Compress.AppState)
    (fl : List JFile)
    (hs : ∀ f ∈ s.currentFiles, isImageType f.type = true) :
    ∀ f ∈ (Compress.addFiles s fl).currentFiles,
      isImageType f.type = true := by
  intro f hf
  rw [Compress.addFiles_currentFiles] at hf
  split at hf
  · exact hs f hf
  · cases hcb : Compress.compressBatch
        (fl.filter (fun g => isImageType g.type)) with
    | error e =>
      rw [hcb] at hf
      exact hs f hf
    | ok compressed =>
      rw [hcb] at hf
      dsimp only at hf
      have hf2 : f ∈ s.currentFiles ++ compressed :=
        (List.take_sublist _ _).subset hf
      rcases List.mem_append.mp hf2 with hcur | hcmp
      · exact hs f hcur
      · obtain ⟨g, hg, r, hr, hfr⟩ := Compress.compressBatch_ok_mem hcb f hcmp
        have hgimg : isImageType g.type = true := by
          simpa using (List.mem_filter.mp hg).2
        cases r with
        | none =>
          rw [hfr]
          simpa using hgimg
        | some out =>
          have hty := Compress.compressImage_type_eq hr
          rw [hfr]
          simp only [Option.getD_some]
          rw [hty]
          decide

/-- Witness for C5 as amended: adding a text file and a PNG to the
empty collection leaves only image-typed files. -/
theorem C5_compress_variant_image_only_witness :
    (Compress.addFiles Compress.initialState
        [textFile, badPng 0]).currentFiles.all
      (fun f => isImageType f.type) = true :=
  List.all_eq_true.mpr
    (C5_compress_variant_image_only Compress.initialState [textFile, badPng 0]
      (by simp [Compress.initialState]))

/-- Claim C6: submitting with an empty collection is rejected locally:
the inline error "Lütfen en az 1 görsel yükleyin." is shown, no request
is issued (the second component is `none`), and the collection is
unchanged. -/
theorem C6_empty_submit_rejected (s : Compress.AppState)
    (h : s.currentFiles = []) :
    Compress.submitValidate s =
      ({ s with errorBox := some Compress.errEmpty }, none) ∧
    (Compress.submitValidate s).1.currentFiles = s.currentFiles := by
  have h1 := Compress.submitValidate_empty s h
  exact ⟨h1, by rw [h1]⟩

/-- Witness for C6 at the initial (empty) state. -/
theorem C6_empty_submit_rejected_witness :
    Compress.submitValidate Compress.initialState =
      ({ Compress.initialState with
          errorBox := some Compress.errEmpty }, none) ∧
    (Compress.submitValidate Compress.initialState).1.currentFiles =
      Compress.initialState.currentFiles :=
  C6_empty_submit_rejected Compress.initialState rfl

/-- Claim C7: removing the element at a valid index `i` leaves exactly
the other files, in their original relative order: the result is
`take i ++ drop (i+1)`, its length drops by one, entries below `i` are
unchanged, entries from `i` on are shifted down by one, and the result
is a sublist (order-preserving subsequence) of the original. -/
theorem C7_remove_preserves_order (s : Compress.AppState) (i : Nat)
    (hi : i < s.currentFiles.length) :
    (Compress.removeFileAt s i).currentFiles =
        s.currentFiles.take i ++ s.currentFiles.drop (i + 1) ∧
    (Compress.removeFileAt s i).currentFiles.length =
        s.currentFiles.length - 1 ∧
    (∀ j : Nat, j < i →
        (Compress.removeFileAt s i).currentFiles.get? j =
          s.currentFiles.get? j) ∧
    (∀ j : Nat, i ≤ j →
        (Compress.removeFileAt s i).currentFiles.get? j =
          s.currentFiles.get? (j + 1)) ∧
    (Compress.removeFileAt s i).currentFiles.Sublist s.currentFiles := by
  have hcf : (Compress.removeFileAt s i).currentFiles =
      s.currentFiles.take i ++ s.currentFiles.drop (i + 1) := by
    unfold Compress.removeFileAt
    rw [Compress.renderPreviews_currentFiles]
    exact Compress.spliceOne_eq_take_drop s.currentFiles i hi
  have htl : (s.currentFiles.take i).length = i := by
    rw [List.length_take]
    omega
  refine ⟨hcf, ?_, ?_, ?_, ?_⟩
  · rw [hcf, List.length_append, List.length_drop, htl]
    omega
  · intro j hj
    rw [hcf]
    rw [List.get?_append (by omega : j < (s.currentFiles.take i).length)]
    exact List.get?_take hj
  · intro j hj
    rw [hcf]
    rw [List.get?_append_right
      (by omega : (s.currentFiles.take i).length ≤ j)]
    rw [htl, List.get?_drop]
    congr 1
    omega
  · rw [hcf]
    have hsub : (s.currentFiles.drop (i + 1)).Sublist
        (s.currentFiles.drop i) := by
      have h2 := List.drop_sublist 1 (s.currentFiles.drop i)
      rw [List.drop_drop] at h2
      exact h2
    have h3 := hsub.append_left (s.currentFiles.take i)
    rwa [List.take_append_drop] at h3

/-- Witness for C7: removing index 1 from a three-file collection. -/
theorem C7_remove_preserves_order_witness :
    (Compress.removeFileAt threeState 1).currentFiles =
        threeState.currentFiles.take 1 ++ threeState.currentFiles.drop (1 + 1) ∧
    (Compress.removeFileAt threeState 1).currentFiles.length =
        threeState.currentFiles.length - 1 ∧
    (∀ j : Nat, j < 1 →
        (Compress.removeFileAt threeState 1).currentFiles.get? j =
          threeState.currentFiles.get? j) ∧
    (∀ j : Nat, 1 ≤ j →
        (Compress.removeFileAt threeState 1).currentFiles.get? j =
          threeState.currentFiles.get? (j + 1)) ∧
    (Compress.removeFileAt threeState 1).currentFiles.Sublist
      threeState.currentFiles :=
  C7_remove_preserves_order threeState 1 (by decide)

/-- Counterexample to claim C8: after a successful binary download the
submit control does not end up enabled.  The success handler briefly
re-enables it, but then clears the collection and re-renders, and
`updateStatus` disables the button again because the collection is
empty.  At a concrete ready state, the final `disabled` flag is true. -/
theorem C8_counterexample_success_leaves_disabled :
    (Compress.submitResolve readyState
        (.response true 200 none (String.mk []) 3)).1.submitDisabled = true := by
  decide

/-- Claim C8 as amended: after a failed submission (non-ok response or
network error) the submit control is re-enabled with its idle label; on
part_001's handler the `finally` block re-enables it after every
outcome.  After a successful download the control carries the idle
label but is left disabled, because the collection has been cleared and
the empty-collection rule of `updateStatus` applies; the transient
submitting state never persists. -/
theorem C8_submit_control_after_completion :
    (∀ (s : Compress.AppState) (status : Nat) (cd : Option String)
        (txt : String) (b : Nat),
        (Compress.submitResolve s
            (.response false status cd txt b)).1.submitDisabled = false ∧
        (Compress.submitResolve s
            (.response false status cd txt b)).1.submitText =
          Compress.idleLabel) ∧
    (∀ (s : Compress.AppState) (msg : String),
        (Compress.submitResolve s (.networkError msg)).1.submitDisabled = false ∧
        (Compress.submitResolve s (.networkError msg)).1.submitText =
          Compress.idleLabel) ∧
    (∀ (s : Compress.AppState) (status : Nat) (cd : Option String)
        (txt : String) (b : Nat),
        (Compress.submitResolve s
            (.response true status cd txt b)).1.submitText =
          Compress.idleLabel ∧
        (Compress.submitResolve s
            (.response true status cd txt b)).1.currentFiles = [] ∧
        (Compress.submitResolve s
            (.response true status cd txt b)).1.submitDisabled = true) ∧
    (∀ (s : Part001.St) (o : Part001.Outcome),
        (Part001.submitResolve s o).btnDisabled = false) := by
  refine ⟨fun s status cd txt b => ⟨rfl, rfl⟩,
    fun s msg => ⟨rfl, rfl⟩,
    fun s status cd txt b => ⟨?_, ?_, ?_⟩,
    fun s o => rfl⟩
  · exact Compress.renderPreviews_submitText _
  · exact Compress.renderPreviews_currentFiles _
  · exact (Compress.renderPreviews_submitDisabled _).trans rfl

/-- Counterexample to claim C9: the clamped interval is not always a
step of at least 1.  For the unparseable interval string "abc",
`parseInt` yields NaN and `Math.max(1, NaN)` is NaN, so no integer step
at least 1 exists; the loop still exits after its first iteration,
giving count 1 for January 2024. -/
theorem C9_counterexample_nan_interval :
    Compress.jsMax1 (Compress.jsParseInt ("abc")) = none ∧
    (¬ ∃ k : Int, Compress.jsMax1 (Compress.jsParseInt ("abc")) = some k ∧
        1 ≤ k) ∧
    Compress.calcPlanCount ("2024-01") ("abc") = some 1 := by
  refine ⟨by decide, ?_, by decide⟩
  intro hex
  obtain ⟨k, hk, hk1⟩ := hex
  have hnone : Compress.jsMax1 (Compress.jsParseInt ("abc")) = none := by
    decide
  rw [hnone] at hk
  exact Option.noConfusion hk

/-- Claim C9 as amended: `calcPlanCount` is total and terminating for
every pair of input strings (the modelled loop always exits within its
fuel: parseable intervals are clamped to an integer step of at least 1,
and an unparseable interval gives a NaN step, after which the loop
exits on its first re-test); any month string not matching YYYY-MM
yields count 0, which makes the submit handler skip the
schedule-versus-file-count validation entirely. -/
theorem C9_calcPlanCount_total :
    (∀ ym iv : String, (Compress.calcPlanCount ym iv).isSome = true) ∧
    (∀ ym iv : String, Compress.monthPatternTest ym = false →
        Compress.calcPlanCount ym iv = some 0) ∧
    (∀ s : Compress.AppState,
        Compress.calcPlanCount s.planMonth s.intervalDays = some 0 →
        s.currentFiles.length ≠ 0 →
        s.currentFiles.length ≤ Compress.MAX_FILES →
        (Compress.submitValidate s).2 = some s.currentFiles) := by
  refine ⟨Compress.calcPlanCount_isSome, fun ym iv h => ?_,
    fun s hc hne hle => ?_⟩
  · simp [Compress.calcPlanCount, h]
  · unfold Compress.submitValidate
    dsimp only
    rw [hc]
    simp only [Option.getD_some]
    rw [if_neg hne,
      if_neg (by omega : ¬ s.currentFiles.length > Compress.MAX_FILES),
      if_neg (by simp : ¬ ((0 : Nat) < 0 ∧ s.currentFiles.length > 0))]

/-- Witness for C9 as amended: a non-matching month yields count 0, and
a ready one-file state with a non-matching month passes validation and
issues the request. -/
theorem C9_calcPlanCount_total_witness :
    Compress.calcPlanCount ("not a month") ("abc") = some 0 ∧
    (Compress.submitValidate badMonthState).2 =
      some badMonthState.currentFiles :=
  ⟨C9_calcPlanCount_total.2.1 ("not a month") ("abc") (by decide),
   C9_calcPlanCount_total.2.2 badMonthState (by decide) (by decide)
     (by decide)⟩

/-- Claim C10: after a successful binary download the collection is
reset to empty and the file input is cleared, so an immediate second
submit is rejected as an empty selection (no request, inline empty
error); after a failed submission (non-ok response or network error)
the collection is unchanged. -/
theorem C10_reset_after_success :
    (∀ (s : Compress.AppState) (status : Nat) (cd : Option String)
        (txt : String) (b : Nat),
        (Compress.submitResolve s
            (.response true status cd txt b)).1.currentFiles = [] ∧
        (Compress.submitResolve s
            (.response true status cd txt b)).1.fileInputValue = "" ∧
        (Compress.submitValidate
            ((Compress.submitResolve s (.response true status cd txt b)).1)).2 =
          none ∧
        (Compress.submitValidate
            ((Compress.submitResolve s
              (.response true status cd txt b)).1)).1.errorBox =
          some Compress.errEmpty) ∧
    (∀ (s : Compress.AppState) (status : Nat) (cd : Option String)
        (txt : String) (b : Nat),
        (Compress.submitResolve s
            (.response false status cd txt b)).1.currentFiles =
          s.currentFiles) ∧
    (∀ (s : Compress.AppState) (msg : String),
        (Compress.submitResolve s (.networkError msg)).1.currentFiles =
          s.currentFiles) := by
  refine ⟨fun s status cd txt b => ?_, fun s status cd txt b => rfl,
    fun s msg => rfl⟩
  have hcf : (Compress.submitResolve s
      (.response true status cd txt b)).1.currentFiles = [] :=
    Compress.renderPreviews_currentFiles _
  have hval := Compress.submitValidate_empty _ hcf
  refine ⟨hcf, Compress.renderPreviews_fileInputValue _, ?_, ?_⟩
  · rw [hval]
  · rw [hval]
